import Mathlib

/-!
Verification of the temporal-sdk-core task-acquisition layer.

Part 1 embeds `DrivenWorkflow` (src/core/src/workflow/driven_workflow.rs):
a purely sequential structure holding the started-event attributes, a
boxed command fetcher, and a FIFO queue of outgoing activation jobs.
Mutating Rust methods (`&mut self`) become state-transformer functions.

Part 2 embeds `LongPollBuffer` (src/src/pollers/poll_buffer.rs) as a
labelled transition system over an explicit state, with ghost (history)
counters used to state the demand/poll-attempt accounting invariants.
-/

/-- Modelled from the spec: the started-event attributes record from the
protos crate (`WorkflowExecutionStartedEventAttributes`), an opaque record
of start-time metadata; only its identity matters to this core. -/
structure WorkflowExecutionStartedEventAttributes where
  original_execution_run_id : String
  input : Nat
deriving DecidableEq

/-- Modelled from the spec: the `SignalWorkflow` payload from the protos
crate, treated as an opaque tagged payload. -/
structure SignalWorkflow where
  signal_name : String
deriving DecidableEq

/-- Modelled from the spec: the `CancelWorkflow` payload from the protos
crate, treated as an opaque tagged payload. -/
structure CancelWorkflow where
  details : String
deriving DecidableEq

/-- Modelled from the spec: the start-workflow job payload built by
`start_workflow_from_attribs` out of the attributes, workflow id and
randomness seed. -/
structure StartWorkflow where
  workflow_id : String
  randomness_seed : Nat
  attribs : WorkflowExecutionStartedEventAttributes
deriving DecidableEq

/-- Modelled from the spec: `start_workflow_from_attribs(attribs, workflow_id,
randomness_seed)` from the protos crate constructs a start-workflow job
payload from its three arguments. -/
def start_workflow_from_attribs (attribs : WorkflowExecutionStartedEventAttributes)
    (workflow_id : String) (randomness_seed : Nat) : StartWorkflow :=
  { workflow_id := workflow_id, randomness_seed := randomness_seed, attribs := attribs }

/-- The job variants of `workflow_activation_job::Variant`: start, signal,
cancel, plus the other job kinds of the activation protocol (opaque here). -/
inductive Variant where
  | startWorkflow (s : StartWorkflow)
  | signalWorkflow (s : SignalWorkflow)
  | cancelWorkflow (c : CancelWorkflow)
  | otherJob (tag : Nat)
deriving DecidableEq

/-- Modelled from the spec: `WorkflowActivationJob` wraps one job variant
(the generated proto struct holds an optional variant). -/
structure WorkflowActivationJob where
  variant : Option Variant
deriving DecidableEq

/-- Modelled from the spec: the protos `From<Variant> for WorkflowActivationJob`
conversion used by `drain_jobs`'s `.map(Into::into)`. -/
def Variant.intoJob (v : Variant) : WorkflowActivationJob :=
  { variant := some v }

/-- A workflow command, opaque to this core (`WFCommand`). -/
structure WFCommand where
  tag : Nat
deriving DecidableEq

/-- The `WorkflowFetcher` trait: asynchronously produce the commands of the
most recent workflow iteration. `&mut self` + async becomes a state
transformer returning the command list and the successor fetcher state. -/
class WorkflowFetcher (F : Type) where
  fetch_workflow_iteration_output : F → List WFCommand × F

/-- `DrivenWorkflow` (driven_workflow.rs lines 13-18): started attributes,
the wrapped fetcher, and the FIFO queue of outgoing activation jobs
(`VecDeque`, front = head of the list). -/
structure DrivenWorkflow (F : Type) where
  started_attrs : Option WorkflowExecutionStartedEventAttributes
  fetcher : F
  outgoing_wf_activation_jobs : List Variant

/-- `impl From<Box<WF>> for DrivenWorkflow` (lines 20-31): fresh state with
no started attributes and an empty job queue. -/
def DrivenWorkflow.ofFetcher {F : Type} (wf : F) : DrivenWorkflow F :=
  { started_attrs := none, fetcher := wf, outgoing_wf_activation_jobs := [] }

/-- `send_job` (lines 55-57): push the job variant at the back of the queue. -/
def DrivenWorkflow.send_job {F : Type} (dw : DrivenWorkflow F) (job : Variant) :
    DrivenWorkflow F :=
  { dw with outgoing_wf_activation_jobs := dw.outgoing_wf_activation_jobs ++ [job] }

/-- `start` (lines 35-47): enqueue the start job built from the attributes,
then record the attributes. -/
def DrivenWorkflow.start {F : Type} (dw : DrivenWorkflow F) (workflow_id : String)
    (randomness_seed : Nat) (attribs : WorkflowExecutionStartedEventAttributes) :
    DrivenWorkflow F :=
  let dw1 := dw.send_job
    (Variant.startWorkflow (start_workflow_from_attribs attribs workflow_id randomness_seed))
  { dw1 with started_attrs := some attribs }

/-- `get_started_attrs` (lines 50-52): read-only accessor. -/
def DrivenWorkflow.get_started_attrs {F : Type} (dw : DrivenWorkflow F) :
    Option WorkflowExecutionStartedEventAttributes :=
  dw.started_attrs

/-- `has_pending_jobs` (lines 60-62). -/
def DrivenWorkflow.has_pending_jobs {F : Type} (dw : DrivenWorkflow F) : Bool :=
  !dw.outgoing_wf_activation_jobs.isEmpty

/-- `drain_jobs` (lines 65-70): remove all queued jobs, convert each variant
into a `WorkflowActivationJob`, and return them; the queue becomes empty. -/
def DrivenWorkflow.drain_jobs {F : Type} (dw : DrivenWorkflow F) :
    List WorkflowActivationJob × DrivenWorkflow F :=
  (dw.outgoing_wf_activation_jobs.map Variant.intoJob,
    { dw with outgoing_wf_activation_jobs := [] })

/-- `signal` (lines 73-75): wrap the payload in the signal variant and
enqueue it via `send_job`. -/
def DrivenWorkflow.signal {F : Type} (dw : DrivenWorkflow F) (s : SignalWorkflow) :
    DrivenWorkflow F :=
  dw.send_job (Variant.signalWorkflow s)

/-- `cancel` (lines 78-80): wrap the payload in the cancel variant and
enqueue it via `send_job`. -/
def DrivenWorkflow.cancel {F : Type} (dw : DrivenWorkflow F) (attribs : CancelWorkflow) :
    DrivenWorkflow F :=
  dw.send_job (Variant.cancelWorkflow attribs)

/-- `impl WorkflowFetcher for DrivenWorkflow` (lines 83-88): delegate to the
wrapped fetcher, threading its state back into the `fetcher` field. -/
def DrivenWorkflow.fetch_workflow_iteration_output {F : Type} [WorkflowFetcher F]
    (dw : DrivenWorkflow F) : List WFCommand × DrivenWorkflow F :=
  let out := WorkflowFetcher.fetch_workflow_iteration_output dw.fetcher
  (out.1, { dw with fetcher := out.2 })

instance {F : Type} [WorkflowFetcher F] : WorkflowFetcher (DrivenWorkflow F) :=
  ⟨DrivenWorkflow.fetch_workflow_iteration_output⟩

/-- One call of the `DrivenWorkflow` enqueueing API, used to talk about
arbitrary finite call sequences. -/
inductive WfOp where
  | sendJob (v : Variant)
  | signal (s : SignalWorkflow)
  | cancel (c : CancelWorkflow)
  | start (workflow_id : String) (randomness_seed : Nat)
      (attribs : WorkflowExecutionStartedEventAttributes)
deriving DecidableEq

/-- The single job variant a given call enqueues. -/
def WfOp.variantOf : WfOp → Variant
  | .sendJob v => v
  | .signal s => .signalWorkflow s
  | .cancel c => .cancelWorkflow c
  | .start w r a => .startWorkflow (start_workflow_from_attribs a w r)

/-- Whether the call is a `start` call. -/
def WfOp.isStart : WfOp → Bool
  | .start _ _ _ => true
  | _ => false

/-- Apply one API call to a workflow state. -/
def DrivenWorkflow.applyOp {F : Type} (dw : DrivenWorkflow F) : WfOp → DrivenWorkflow F
  | .sendJob v => dw.send_job v
  | .signal s => dw.signal s
  | .cancel c => dw.cancel c
  | .start w r a => dw.start w r a

/-- Apply a finite sequence of API calls, left to right. -/
def DrivenWorkflow.applyOps {F : Type} (dw : DrivenWorkflow F) (ops : List WfOp) :
    DrivenWorkflow F :=
  ops.foldl DrivenWorkflow.applyOp dw

/-- How one call updates the stored started-attributes: only `start` does. -/
def stepAttrs (cur : Option WorkflowExecutionStartedEventAttributes) :
    WfOp → Option WorkflowExecutionStartedEventAttributes
  | .start _ _ a => some a
  | _ => cur

lemma DrivenWorkflow.applyOp_outgoing {F : Type} (dw : DrivenWorkflow F) (op : WfOp) :
    (dw.applyOp op).outgoing_wf_activation_jobs =
      dw.outgoing_wf_activation_jobs ++ [op.variantOf] := by
  cases op <;> rfl

lemma DrivenWorkflow.applyOp_started_attrs {F : Type} (dw : DrivenWorkflow F) (op : WfOp) :
    (dw.applyOp op).started_attrs = stepAttrs dw.started_attrs op := by
  cases op <;> rfl

lemma DrivenWorkflow.applyOp_fetcher {F : Type} (dw : DrivenWorkflow F) (op : WfOp) :
    (dw.applyOp op).fetcher = dw.fetcher := by
  cases op <;> rfl

lemma DrivenWorkflow.applyOps_outgoing {F : Type} (ops : List WfOp) :
    ∀ dw : DrivenWorkflow F, (dw.applyOps ops).outgoing_wf_activation_jobs =
      dw.outgoing_wf_activation_jobs ++ ops.map WfOp.variantOf := by
  induction ops with
  | nil => intro dw; simp [DrivenWorkflow.applyOps]
  | cons op rest ih =>
      intro dw
      simp only [DrivenWorkflow.applyOps, List.foldl_cons, List.map_cons]
      have h := ih (dw.applyOp op)
      simp only [DrivenWorkflow.applyOps] at h
      rw [h, DrivenWorkflow.applyOp_outgoing]
      simp

lemma DrivenWorkflow.applyOps_started_attrs {F : Type} (ops : List WfOp) :
    ∀ dw : DrivenWorkflow F, (dw.applyOps ops).started_attrs =
      ops.foldl stepAttrs dw.started_attrs := by
  induction ops with
  | nil => intro dw; rfl
  | cons op rest ih =>
      intro dw
      simp only [DrivenWorkflow.applyOps, List.foldl_cons]
      have h := ih (dw.applyOp op)
      simp only [DrivenWorkflow.applyOps] at h
      rw [h, DrivenWorkflow.applyOp_started_attrs]

lemma foldl_stepAttrs_no_start (ops : List WfOp) :
    ∀ cur, (∀ op ∈ ops, op.isStart = false) → ops.foldl stepAttrs cur = cur := by
  induction ops with
  | nil => intro cur _; rfl
  | cons op rest ih =>
      intro cur h
      have hop : op.isStart = false := h op (List.mem_cons_self op rest)
      have hrest : ∀ o ∈ rest, o.isStart = false := fun o ho => h o (List.mem_cons_of_mem op ho)
      simp only [List.foldl_cons]
      rw [show stepAttrs cur op = cur by cases op <;> simp [stepAttrs, WfOp.isStart] at hop ⊢]
      exact ih cur hrest

/-- C4: for every DrivenWorkflow and every finite sequence of
`send_job`/`signal`/`cancel`/`start` calls, `drain_jobs` returns exactly the
previously queued jobs followed by the jobs enqueued by those calls, in
enqueue (FIFO) order, and leaves the queue empty, so that an immediately
following `drain_jobs` with no intervening enqueues returns the empty
sequence; no job is both drained and left behind, and none is drained twice
(for a freshly constructed workflow the previously-queued part is empty). -/
theorem DrivenWorkflow.drain_jobs_fifo {F : Type} (dw : DrivenWorkflow F)
    (ops : List WfOp) :
    ((dw.applyOps ops).drain_jobs.1 =
        (dw.outgoing_wf_activation_jobs ++ ops.map WfOp.variantOf).map Variant.intoJob) ∧
    (dw.applyOps ops).drain_jobs.2.outgoing_wf_activation_jobs = [] ∧
    (dw.applyOps ops).drain_jobs.2.drain_jobs.1 = [] ∧
    ((DrivenWorkflow.ofFetcher dw.fetcher).applyOps ops).drain_jobs.1 =
        ops.map (fun op => op.variantOf.intoJob) := by
  refine ⟨?_, rfl, rfl, ?_⟩
  · simp [DrivenWorkflow.drain_jobs, DrivenWorkflow.applyOps_outgoing]
  · simp [DrivenWorkflow.drain_jobs, DrivenWorkflow.applyOps_outgoing,
      DrivenWorkflow.ofFetcher]

/-- C5: `get_started_attrs()` is `none` on a freshly constructed workflow and
stays `none` across any sequence of calls containing no `start`; after a
`start` call followed by any sequence of non-`start` calls it is exactly the
attributes of that (most recent) `start`; `drain_jobs` does not change the
stored attributes either. -/
theorem DrivenWorkflow.started_attrs_last_start {F : Type} (wf : F)
    (ops ops1 ops2 : List WfOp) (w : String) (r : Nat)
    (a : WorkflowExecutionStartedEventAttributes) (dw : DrivenWorkflow F) :
    (DrivenWorkflow.ofFetcher wf).get_started_attrs = none ∧
    ((∀ op ∈ ops, op.isStart = false) →
      ((DrivenWorkflow.ofFetcher wf).applyOps ops).get_started_attrs = none) ∧
    ((∀ op ∈ ops2, op.isStart = false) →
      ((DrivenWorkflow.ofFetcher wf).applyOps
        (ops1 ++ WfOp.start w r a :: ops2)).get_started_attrs = some a) ∧
    dw.drain_jobs.2.get_started_attrs = dw.get_started_attrs := by
  refine ⟨rfl, ?_, ?_, rfl⟩
  · intro h
    rw [DrivenWorkflow.get_started_attrs, DrivenWorkflow.applyOps_started_attrs]
    exact foldl_stepAttrs_no_start ops _ h
  · intro h
    rw [DrivenWorkflow.get_started_attrs, DrivenWorkflow.applyOps_started_attrs]
    rw [List.foldl_append, List.foldl_cons]
    exact foldl_stepAttrs_no_start ops2 _ h

/-- C5 witness: concrete instantiation — fresh workflow has no attributes, a
signal-only sequence leaves them `none`, and `start` then `cancel` leaves the
started attributes at the `start`'s argument. -/
theorem DrivenWorkflow.started_attrs_last_start_witness :
    (DrivenWorkflow.ofFetcher ()).get_started_attrs = none ∧
    ((DrivenWorkflow.ofFetcher ()).applyOps
        [WfOp.signal { signal_name := "s" }]).get_started_attrs = none ∧
    ((DrivenWorkflow.ofFetcher ()).applyOps
        ([WfOp.sendJob (Variant.otherJob 7)] ++
          WfOp.start "wid" 3 { original_execution_run_id := "run", input := 0 } ::
            [WfOp.cancel { details := "c" }])).get_started_attrs =
      some { original_execution_run_id := "run", input := 0 } ∧
    (DrivenWorkflow.ofFetcher ()).drain_jobs.2.get_started_attrs =
      (DrivenWorkflow.ofFetcher ()).get_started_attrs := by
  have h := DrivenWorkflow.started_attrs_last_start ()
    [WfOp.signal { signal_name := "s" }]
    [WfOp.sendJob (Variant.otherJob 7)] [WfOp.cancel { details := "c" }]
    "wid" 3 { original_execution_run_id := "run", input := 0 }
    (DrivenWorkflow.ofFetcher ())
  exact ⟨h.1, h.2.1 (by decide), h.2.2.1 (by decide), h.2.2.2⟩

/-- C8: `signal` is definitionally `send_job` of the signal variant and
`cancel` is definitionally `send_job` of the cancel variant; each enqueues
exactly one job at the back of the queue and changes nothing else (started
attributes and fetcher untouched). -/
theorem DrivenWorkflow.signal_cancel_are_send_job {F : Type} (dw : DrivenWorkflow F)
    (s : SignalWorkflow) (c : CancelWorkflow) :
    dw.signal s = dw.send_job (Variant.signalWorkflow s) ∧
    dw.cancel c = dw.send_job (Variant.cancelWorkflow c) ∧
    (dw.signal s).outgoing_wf_activation_jobs =
      dw.outgoing_wf_activation_jobs ++ [Variant.signalWorkflow s] ∧
    (dw.cancel c).outgoing_wf_activation_jobs =
      dw.outgoing_wf_activation_jobs ++ [Variant.cancelWorkflow c] ∧
    (dw.signal s).started_attrs = dw.started_attrs ∧
    (dw.signal s).fetcher = dw.fetcher ∧
    (dw.cancel c).started_attrs = dw.started_attrs ∧
    (dw.cancel c).fetcher = dw.fetcher :=
  ⟨rfl, rfl, rfl, rfl, rfl, rfl, rfl, rfl⟩

/-- C9: `fetch_workflow_iteration_output` on a DrivenWorkflow returns exactly
the command sequence of the wrapped fetcher, unmodified, and changes no
DrivenWorkflow state beyond threading the fetcher's own successor state:
started attributes and the job queue are unchanged. -/
theorem DrivenWorkflow.fetch_delegates {F : Type} [WorkflowFetcher F]
    (dw : DrivenWorkflow F) :
    dw.fetch_workflow_iteration_output.1 =
      (WorkflowFetcher.fetch_workflow_iteration_output dw.fetcher).1 ∧
    dw.fetch_workflow_iteration_output.2.started_attrs = dw.started_attrs ∧
    dw.fetch_workflow_iteration_output.2.outgoing_wf_activation_jobs =
      dw.outgoing_wf_activation_jobs ∧
    dw.fetch_workflow_iteration_output.2.fetcher =
      (WorkflowFetcher.fetch_workflow_iteration_output dw.fetcher).2 :=
  ⟨rfl, rfl, rfl, rfl⟩

/-!
Part 2: `LongPollBuffer` (src/src/pollers/poll_buffer.rs).

The buffer spawns `concurrent_pollers` worker tasks, each looping:
check the shutdown flag at the top (line 48); race a semaphore acquire
against the shutdown watch (lines 51-54); race the injected poll operation
against the shutdown watch (lines 55-58); on completion `forget` the
acquired permit (line 59) and push the result into the bounded mpsc
channel (line 60). `poll` (lines 83-87) adds one permit and receives one
buffered result; the receive yields `none` exactly when the channel is
closed (all sender handles dropped, i.e. every worker task has exited and
the producer handle created at construction is gone) and the queue is
empty. Tokio RAII semantics are embedded explicitly: dropping an acquired
`SemaphorePermit` (the `continue` in the second race) adds the permit back
to the semaphore; only `forget` consumes it.

The embedding is a labelled transition system interleaving worker steps
with caller steps. Ghost fields (`issued`, `started`, `completed`,
`abandoned`, `pushed`, `delivered`) are history counters that do not
influence enabledness; they exist so the claims' accounting can be stated.
-/

/-- `pollers::Result<T>` — a poll either yields a task or an error value
(`tonic::Status`, opaque, modelled by its message). -/
inductive PollRes (T : Type) where
  | ok (t : T)
  | err (e : String)
deriving DecidableEq

/-- Control position of one worker task inside the loop of
`LongPollBuffer::new` (lines 46-62). -/
inductive WorkerState (T : Type) where
  | atTop
  | waitingPermit
  | polling
  | pushing (r : PollRes T)
  | done
deriving DecidableEq

/-- Whether the worker is inside an in-flight call of the injected poll
operation (the first arm of the select at lines 55-58). -/
def WorkerState.isPolling {T : Type} : WorkerState T → Bool
  | .polling => true
  | _ => false

/-- Whether the worker has a completed result it has not yet pushed. -/
def WorkerState.isPushing {T : Type} : WorkerState T → Bool
  | .pushing _ => true
  | _ => false

@[simp] lemma isPolling_atTop {T : Type} : (WorkerState.atTop : WorkerState T).isPolling = false := rfl

@[simp] lemma isPolling_waitingPermit {T : Type} :
    (WorkerState.waitingPermit : WorkerState T).isPolling = false := rfl

@[simp] lemma isPolling_polling {T : Type} : (WorkerState.polling : WorkerState T).isPolling = true := rfl

@[simp] lemma isPolling_pushing {T : Type} (r : PollRes T) :
    (WorkerState.pushing r).isPolling = false := rfl

@[simp] lemma isPolling_done {T : Type} : (WorkerState.done : WorkerState T).isPolling = false := rfl

@[simp] lemma isPushing_atTop {T : Type} : (WorkerState.atTop : WorkerState T).isPushing = false := rfl

@[simp] lemma isPushing_waitingPermit {T : Type} :
    (WorkerState.waitingPermit : WorkerState T).isPushing = false := rfl

@[simp] lemma isPushing_polling {T : Type} : (WorkerState.polling : WorkerState T).isPushing = false := rfl

@[simp] lemma isPushing_pushing {T : Type} (r : PollRes T) :
    (WorkerState.pushing r).isPushing = true := rfl

@[simp] lemma isPushing_done {T : Type} : (WorkerState.done : WorkerState T).isPushing = false := rfl

/-- State of a `LongPollBuffer<T>`: the observable fields mirror the
struct's fields (lines 14-22); the final six are ghost history counters. -/
structure LongPollBuffer (T : Type) where
  /-- contents of the bounded mpsc channel feeding `buffered_polls` -/
  buffered_polls : List (PollRes T)
  /-- current value of the `shutdown` watch channel -/
  shutdown : Bool
  /-- available permits of the `polls_requested` semaphore -/
  polls_requested : Nat
  /-- loop position of each spawned worker task (`join_handles`) -/
  workers : List (WorkerState T)
  /-- the `buffer_size` passed to `channel` -/
  cap : Nat
  /-- ghost: permits ever added by `poll` calls -/
  issued : Nat
  /-- ghost: poll-operation invocations ever started -/
  started : Nat
  /-- ghost: poll-operation invocations ever completed -/
  completed : Nat
  /-- ghost: in-flight invocations abandoned by the shutdown race -/
  abandoned : Nat
  /-- ghost: results ever pushed into the channel -/
  pushed : Nat
  /-- ghost: results ever removed by `poll` callers -/
  delivered : Nat
deriving DecidableEq

/-- `LongPollBuffer::new(poll_fn, concurrent_pollers, buffer_size)`
(lines 28-71): empty channel, zero permits, shutdown false, and
`concurrent_pollers` workers at the top of their loops. -/
def LongPollBuffer.new (T : Type) (concurrent_pollers buffer_size : Nat) :
    LongPollBuffer T :=
  { buffered_polls := []
    shutdown := false
    polls_requested := 0
    workers := List.replicate concurrent_pollers WorkerState.atTop
    cap := buffer_size
    issued := 0, started := 0, completed := 0, abandoned := 0, pushed := 0, delivered := 0 }

/-- Number of workers currently inside an invocation of the injected poll
operation. -/
def inflight {T : Type} (s : LongPollBuffer T) : Nat :=
  s.workers.countP WorkerState.isPolling

/-- Number of workers holding a completed, not yet pushed result. -/
def pendingPush {T : Type} (s : LongPollBuffer T) : Nat :=
  s.workers.countP WorkerState.isPushing

/-- The condition under which `Receiver::recv` inside `poll` returns `None`:
the channel is empty and closed. It is closed exactly when every sender
handle has been dropped: the construction-time handle dies when `new`
returns, and each worker's clone dies when that worker's task exits. -/
def recv_returns_none {T : Type} (s : LongPollBuffer T) : Prop :=
  s.buffered_polls = [] ∧ ∀ w ∈ s.workers, w = WorkerState.done

/-- `notify_shutdown` (lines 89-91): send `true` on the shutdown watch. -/
def LongPollBuffer.notify_shutdown {T : Type} (s : LongPollBuffer T) :
    LongPollBuffer T :=
  { s with shutdown := true }

/-- Events of the transition system: caller-side events of `poll` and
`notify_shutdown`, and the scheduler picking worker `i` at one of its
suspension/branch points. -/
inductive Label (T : Type) where
  | pollRequest
  | recvSome (r : PollRes T)
  | recvNone
  | notify
  | checkTopExit (i : Nat)
  | checkTopCont (i : Nat)
  | acquire (i : Nat)
  | acquireInterrupted (i : Nat)
  | pollComplete (i : Nat) (r : PollRes T)
  | pollInterrupted (i : Nat)
  | push (i : Nat)

/-- One interleaved step of the buffer, its workers, or a `poll` caller. -/
inductive Step {T : Type} : LongPollBuffer T → Label T → LongPollBuffer T → Prop where
  /-- `poll` line 84: `self.polls_requested.add_permits(1)`. -/
  | pollRequest (s : LongPollBuffer T) :
      Step s .pollRequest
        { s with polls_requested := s.polls_requested + 1, issued := s.issued + 1 }
  /-- `poll` line 86: `recv` removes the front buffered result. -/
  | recvSome (s : LongPollBuffer T) (r : PollRes T) (rest : List (PollRes T))
      (hb : s.buffered_polls = r :: rest) :
      Step s (.recvSome r) { s with buffered_polls := rest, delivered := s.delivered + 1 }
  /-- `poll` line 86: `recv` yields `None`: channel closed and empty. -/
  | recvNone (s : LongPollBuffer T) (hb : s.buffered_polls = [])
      (hw : ∀ w ∈ s.workers, w = WorkerState.done) :
      Step s .recvNone s
  /-- `notify_shutdown` line 90 (also the first half of `shutdown`, line 94):
  the watch now holds `true`. -/
  | notify (s : LongPollBuffer T) :
      Step s .notify s.notify_shutdown
  /-- Loop top, line 48: the flag reads `true`, the worker breaks; its task
  ends and its channel sender is dropped. -/
  | checkTopExit (s : LongPollBuffer T) (i : Nat)
      (hw : s.workers.get? i = some WorkerState.atTop) (hs : s.shutdown = true) :
      Step s (.checkTopExit i) { s with workers := s.workers.set i WorkerState.done }
  /-- Loop top, line 48: the flag reads `false`, the worker proceeds to the
  demand select. -/
  | checkTopCont (s : LongPollBuffer T) (i : Nat)
      (hw : s.workers.get? i = some WorkerState.atTop) (hs : s.shutdown = false) :
      Step s (.checkTopCont i) { s with workers := s.workers.set i WorkerState.waitingPermit }
  /-- First select, line 52: the acquire arm wins; one permit moves from the
  semaphore into the worker's held `SemaphorePermit`, and the injected poll
  operation starts. -/
  | acquire (s : LongPollBuffer T) (i : Nat)
      (hw : s.workers.get? i = some WorkerState.waitingPermit)
      (hp : 0 < s.polls_requested) :
      Step s (.acquire i)
        { s with workers := s.workers.set i WorkerState.polling,
                 polls_requested := s.polls_requested - 1, started := s.started + 1 }
  /-- First select, line 53: the shutdown arm wins; `continue` back to the
  loop top, no permit was taken. -/
  | acquireInterrupted (s : LongPollBuffer T) (i : Nat)
      (hw : s.workers.get? i = some WorkerState.waitingPermit) (hs : s.shutdown = true) :
      Step s (.acquireInterrupted i) { s with workers := s.workers.set i WorkerState.atTop }
  /-- Second select, line 56: the poll operation completes with result `r`;
  line 59 `sp.forget()` consumes the held permit (the semaphore count is
  unchanged: it was decremented at acquire and is never given back). -/
  | pollComplete (s : LongPollBuffer T) (i : Nat) (r : PollRes T)
      (hw : s.workers.get? i = some WorkerState.polling) :
      Step s (.pollComplete i r)
        { s with workers := s.workers.set i (WorkerState.pushing r),
                 completed := s.completed + 1 }
  /-- Second select, line 57: the shutdown arm wins; `continue` drops the
  held `SemaphorePermit`, whose `Drop` impl adds the permit back to the
  semaphore; the in-flight poll future is dropped (abandoned). -/
  | pollInterrupted (s : LongPollBuffer T) (i : Nat)
      (hw : s.workers.get? i = some WorkerState.polling) (hs : s.shutdown = true) :
      Step s (.pollInterrupted i)
        { s with workers := s.workers.set i WorkerState.atTop,
                 polls_requested := s.polls_requested + 1,
                 abandoned := s.abandoned + 1 }
  /-- Line 60: `tx.send(r).await` completes once the bounded channel has
  room; the result is appended unchanged. -/
  | push (s : LongPollBuffer T) (i : Nat) (r : PollRes T)
      (hw : s.workers.get? i = some (WorkerState.pushing r))
      (hcap : s.buffered_polls.length < s.cap) :
      Step s (.push i)
        { s with workers := s.workers.set i WorkerState.atTop,
                 buffered_polls := s.buffered_polls ++ [r],
                 pushed := s.pushed + 1 }

/-- States reachable from a freshly constructed buffer with `K` workers and
capacity `cap`. -/
inductive Reachable (T : Type) (K cap : Nat) : LongPollBuffer T → Prop where
  | init : Reachable T K cap (LongPollBuffer.new T K cap)
  | step {s s1 : LongPollBuffer T} {l : Label T} :
      Reachable T K cap s → Step s l s1 → Reachable T K cap s1

lemma countP_set_get {α : Type} (p : α → Bool) :
    ∀ (l : List α) (i : Nat) (w w' : α), l.get? i = some w →
      (l.set i w').countP p + (if p w then 1 else 0)
        = l.countP p + (if p w' then 1 else 0) := by
  intro l
  induction l with
  | nil => intro i w w' h; simp [List.get?] at h
  | cons a t ih =>
      intro i w w' h
      cases i with
      | zero =>
          simp [List.get?] at h
          subst h
          simp only [List.set, List.countP_cons]
          cases hpw : p a <;> cases hpw' : p w' <;> simp [hpw, hpw']
      | succ n =>
          simp only [List.get?] at h
          have ihn := ih n w w' h
          simp only [List.set, List.countP_cons]
          cases hpa : p a <;> cases hpw : p w <;> cases hpw' : p w' <;>
            simp [hpa, hpw, hpw'] at ihn ⊢ <;> omega

lemma get?_set_self {α : Type} :
    ∀ (l : List α) (i : Nat) (w w' : α),
      l.get? i = some w → (l.set i w').get? i = some w' := by
  intro l
  induction l with
  | nil => intro i w w' h; simp [List.get?] at h
  | cons a t ih =>
      intro i w w' h
      cases i with
      | zero => rfl
      | succ n =>
          simp only [List.get?, List.set] at h ⊢
          exact ih n w w' h

lemma countP_replicate {α : Type} (p : α → Bool) (a : α) :
    ∀ n, (List.replicate n a).countP p = if p a then n else 0 := by
  intro n
  induction n with
  | zero => simp
  | succ n ih =>
      rw [List.replicate_succ, List.countP_cons, ih]
      cases hpa : p a <;> simp [hpa]

/-- The inductive invariant of the buffer: worker-pool size is fixed; the
semaphore/ghost accounting balances (permits available plus attempts started
equals permits issued plus permits re-released by abandoned attempts); every
started attempt is in flight, completed, or abandoned; every completion is
pushed or pending push; every push is delivered or still buffered; nothing
is abandoned and no worker has exited before shutdown is signaled. -/
def BufInv {T : Type} (K : Nat) (s : LongPollBuffer T) : Prop :=
  s.workers.length = K ∧
  s.polls_requested + s.started = s.issued + s.abandoned ∧
  s.started = inflight s + s.completed + s.abandoned ∧
  s.completed = s.pushed + pendingPush s ∧
  s.pushed = s.delivered + s.buffered_polls.length ∧
  (s.shutdown = false → s.abandoned = 0) ∧
  (s.shutdown = false → ∀ w ∈ s.workers, w ≠ WorkerState.done) ∧
  (s.workers = [] → s.buffered_polls = [])

lemma inv_init {T : Type} (K cap : Nat) : BufInv K (LongPollBuffer.new T K cap) := by
  refine ⟨by simp [LongPollBuffer.new], by simp [LongPollBuffer.new], ?_, ?_, ?_, ?_, ?_, fun _ => rfl⟩
  · simp [LongPollBuffer.new, inflight, countP_replicate, WorkerState.isPolling]
  · simp [LongPollBuffer.new, pendingPush, countP_replicate, WorkerState.isPushing]
  · simp [LongPollBuffer.new]
  · simp [LongPollBuffer.new]
  · intro _ w hw
    rw [List.eq_of_mem_replicate hw]
    simp

lemma inv_step {T : Type} {K : Nat} {s s1 : LongPollBuffer T} {l : Label T}
    (hinv : BufInv K s) (hstep : Step s l s1) : BufInv K s1 := by
  obtain ⟨hlen, h1, h2, h3, h4, h5, h6, h7⟩ := hinv
  dsimp only [inflight, pendingPush] at h2 h3
  cases hstep with
  | pollRequest =>
      exact ⟨hlen, by dsimp only; omega, by dsimp only [inflight]; omega,
        by dsimp only [pendingPush]; omega, h4, h5, h6, h7⟩
  | recvSome r rest hb =>
      refine ⟨hlen, h1, h2, h3, ?_, h5, h6, ?_⟩
      · dsimp only
        rw [hb] at h4
        simp at h4
        omega
      · intro hw0
        rw [h7 hw0] at hb
        cases hb
  | recvNone hb hw => exact ⟨hlen, h1, h2, h3, h4, h5, h6, h7⟩
  | notify =>
      exact ⟨hlen, h1, h2, h3, h4, by simp [LongPollBuffer.notify_shutdown],
        by simp [LongPollBuffer.notify_shutdown], h7⟩
  | checkTopExit i hw hs =>
      have hip := countP_set_get WorkerState.isPolling s.workers i
        WorkerState.atTop WorkerState.done hw
      have hpp := countP_set_get WorkerState.isPushing s.workers i
        WorkerState.atTop WorkerState.done hw
      simp at hip hpp
      refine ⟨by simpa using hlen, h1, ?_, ?_, h4, h5, ?_, ?_⟩
      · dsimp only [inflight]; omega
      · dsimp only [pendingPush]; omega
      · intro hsf; simp at hsf; simp [hsf] at hs
      · intro hw0
        have hl0 := congrArg List.length hw0
        simp at hl0
        rw [hl0] at hw
        simp [List.get?] at hw
  | checkTopCont i hw hs =>
      have hip := countP_set_get WorkerState.isPolling s.workers i
        WorkerState.atTop WorkerState.waitingPermit hw
      have hpp := countP_set_get WorkerState.isPushing s.workers i
        WorkerState.atTop WorkerState.waitingPermit hw
      simp at hip hpp
      refine ⟨by simpa using hlen, h1, ?_, ?_, h4, h5, ?_, ?_⟩
      · dsimp only [inflight]; omega
      · dsimp only [pendingPush]; omega
      · intro hsf w hwm
        rcases List.mem_or_eq_of_mem_set hwm with hmem | heq
        · exact h6 hsf w hmem
        · subst heq; simp
      · intro hw0
        have hl0 := congrArg List.length hw0
        simp at hl0
        rw [hl0] at hw
        simp [List.get?] at hw
  | acquire i hw hp =>
      have hip := countP_set_get WorkerState.isPolling s.workers i
        WorkerState.waitingPermit WorkerState.polling hw
      have hpp := countP_set_get WorkerState.isPushing s.workers i
        WorkerState.waitingPermit WorkerState.polling hw
      simp at hip hpp
      refine ⟨by simpa using hlen, by dsimp only; omega, ?_, ?_, h4, h5, ?_, ?_⟩
      · dsimp only [inflight]; omega
      · dsimp only [pendingPush]; omega
      · intro hsf w hwm
        rcases List.mem_or_eq_of_mem_set hwm with hmem | heq
        · exact h6 hsf w hmem
        · subst heq; simp
      · intro hw0
        have hl0 := congrArg List.length hw0
        simp at hl0
        rw [hl0] at hw
        simp [List.get?] at hw
  | acquireInterrupted i hw hs =>
      have hip := countP_set_get WorkerState.isPolling s.workers i
        WorkerState.waitingPermit WorkerState.atTop hw
      have hpp := countP_set_get WorkerState.isPushing s.workers i
        WorkerState.waitingPermit WorkerState.atTop hw
      simp at hip hpp
      refine ⟨by simpa using hlen, h1, ?_, ?_, h4, h5, ?_, ?_⟩
      · dsimp only [inflight]; omega
      · dsimp only [pendingPush]; omega
      · intro hsf; simp at hsf; simp [hsf] at hs
      · intro hw0
        have hl0 := congrArg List.length hw0
        simp at hl0
        rw [hl0] at hw
        simp [List.get?] at hw
  | pollComplete i r hw =>
      have hip := countP_set_get WorkerState.isPolling s.workers i
        WorkerState.polling (WorkerState.pushing r) hw
      have hpp := countP_set_get WorkerState.isPushing s.workers i
        WorkerState.polling (WorkerState.pushing r) hw
      simp at hip hpp
      refine ⟨by simpa using hlen, h1, ?_, ?_, h4, h5, ?_, ?_⟩
      · dsimp only [inflight]; omega
      · dsimp only [pendingPush]; omega
      · intro hsf w hwm
        rcases List.mem_or_eq_of_mem_set hwm with hmem | heq
        · exact h6 hsf w hmem
        · subst heq; simp
      · intro hw0
        have hl0 := congrArg List.length hw0
        simp at hl0
        rw [hl0] at hw
        simp [List.get?] at hw
  | pollInterrupted i hw hs =>
      have hip := countP_set_get WorkerState.isPolling s.workers i
        WorkerState.polling WorkerState.atTop hw
      have hpp := countP_set_get WorkerState.isPushing s.workers i
        WorkerState.polling WorkerState.atTop hw
      simp at hip hpp
      refine ⟨by simpa using hlen, by dsimp only; omega, ?_, ?_, h4, ?_, ?_, ?_⟩
      · dsimp only [inflight]; omega
      · dsimp only [pendingPush]; omega
      · intro hsf; simp at hsf; simp [hsf] at hs
      · intro hsf; simp at hsf; simp [hsf] at hs
      · intro hw0
        have hl0 := congrArg List.length hw0
        simp at hl0
        rw [hl0] at hw
        simp [List.get?] at hw
  | push i r hw hcap =>
      have hip := countP_set_get WorkerState.isPolling s.workers i
        (WorkerState.pushing r) WorkerState.atTop hw
      have hpp := countP_set_get WorkerState.isPushing s.workers i
        (WorkerState.pushing r) WorkerState.atTop hw
      simp at hip hpp
      refine ⟨by simpa using hlen, h1, ?_, ?_, ?_, h5, ?_, ?_⟩
      · dsimp only [inflight]; omega
      · dsimp only [pendingPush]; omega
      · dsimp only; simp; omega
      · intro hsf w hwm
        rcases List.mem_or_eq_of_mem_set hwm with hmem | heq
        · exact h6 hsf w hmem
        · subst heq; simp
      · intro hw0
        have hl0 := congrArg List.length hw0
        simp at hl0
        rw [hl0] at hw
        simp [List.get?] at hw

lemma reachable_inv {T : Type} {K cap : Nat} {s : LongPollBuffer T}
    (h : Reachable T K cap s) : BufInv K s := by
  induction h with
  | init => exact inv_init K cap
  | step _ hstep ih => exact inv_step ih hstep

/-- C1: for every reachable state of a LongPollBuffer, the number of
in-flight or completed invocations of the injected poll operation never
exceeds the number of permits issued by `poll` calls up to that point; and
when every issued permit's `poll` call has been fully served (strictly
sequential polling, no shutdown ever signaled, any concurrency K, in
particular K > 1), the number of underlying poll invocations ever started
is exactly the number of `poll` calls. -/
theorem LongPollBuffer.permits_bound_polls {T : Type} {K cap : Nat}
    (s : LongPollBuffer T) (h : Reachable T K cap s) :
    inflight s + s.completed ≤ s.issued ∧
    (1 < K → s.shutdown = false → s.delivered = s.issued → s.started = s.issued) := by
  obtain ⟨hlen, h1, h2, h3, h4, h5, h6, h7⟩ := reachable_inv h
  constructor
  · omega
  · intro hK hsf hdel
    have hab := h5 hsf
    omega

/-- Concrete execution on a buffer with two workers and capacity one: one
`poll` call, one worker acquires the permit, completes a poll, pushes, and
the caller receives it. -/
def bw0 : LongPollBuffer Unit := LongPollBuffer.new Unit 2 1

/-- After `poll`'s add_permits. -/
def bw1 : LongPollBuffer Unit := { bw0 with polls_requested := 1, issued := 1 }

/-- Worker 0 passed the shutdown check. -/
def bw2 : LongPollBuffer Unit :=
  { bw1 with workers := [WorkerState.waitingPermit, WorkerState.atTop] }

/-- Worker 0 acquired the permit and started the poll operation. -/
def bw3 : LongPollBuffer Unit :=
  { bw2 with workers := [WorkerState.polling, WorkerState.atTop],
             polls_requested := 0, started := 1 }

/-- Worker 0's poll completed successfully. -/
def bw4 : LongPollBuffer Unit :=
  { bw3 with workers := [WorkerState.pushing (PollRes.ok ()), WorkerState.atTop],
             completed := 1 }

/-- Worker 0 pushed the result. -/
def bw5 : LongPollBuffer Unit :=
  { bw4 with workers := [WorkerState.atTop, WorkerState.atTop],
             buffered_polls := [PollRes.ok ()], pushed := 1 }

/-- The `poll` caller received the result. -/
def bw6 : LongPollBuffer Unit := { bw5 with buffered_polls := [], delivered := 1 }

lemma bw6_reachable : Reachable Unit 2 1 bw6 := by
  have h0 : Reachable Unit 2 1 bw0 := Reachable.init
  have h1 : Reachable Unit 2 1 bw1 := h0.step (Step.pollRequest bw0)
  have h2 : Reachable Unit 2 1 bw2 := h1.step (Step.checkTopCont bw1 0 rfl rfl)
  have h3 : Reachable Unit 2 1 bw3 := h2.step (Step.acquire bw2 0 rfl (by decide))
  have h4 : Reachable Unit 2 1 bw4 :=
    h3.step (Step.pollComplete bw3 0 (PollRes.ok ()) rfl)
  have h5 : Reachable Unit 2 1 bw5 := h4.step (Step.push bw4 0 (PollRes.ok ()) rfl (by decide))
  exact h5.step (Step.recvSome bw5 (PollRes.ok ()) [] rfl)

/-- C1 witness: the bound and the serial one-invocation-per-call equality,
evaluated on the concrete run above. -/
theorem LongPollBuffer.permits_bound_polls_witness :
    inflight bw6 + bw6.completed ≤ bw6.issued ∧ bw6.started = bw6.issued := by
  have h := LongPollBuffer.permits_bound_polls bw6 bw6_reachable
  exact ⟨h.1, h.2 (by decide) rfl rfl⟩

/-- Concrete execution on a buffer with one worker and capacity one, driven
to the state where the worker is mid-poll and shutdown has been signaled. -/
def bx0 : LongPollBuffer Unit := LongPollBuffer.new Unit 1 1

/-- After `poll`'s add_permits. -/
def bx1 : LongPollBuffer Unit := { bx0 with polls_requested := 1, issued := 1 }

/-- Worker 0 passed the shutdown check. -/
def bx2 : LongPollBuffer Unit := { bx1 with workers := [WorkerState.waitingPermit] }

/-- Worker 0 acquired the permit and started the poll operation. -/
def bx3 : LongPollBuffer Unit :=
  { bx2 with workers := [WorkerState.polling], polls_requested := 0, started := 1 }

/-- `notify_shutdown` was called while the poll is in flight. -/
def bx4 : LongPollBuffer Unit := { bx3 with shutdown := true }

/-- The shutdown arm won the second select: the worker's `continue` dropped
the held `SemaphorePermit`, re-releasing the permit. -/
def bx5 : LongPollBuffer Unit :=
  { bx4 with workers := [WorkerState.atTop], polls_requested := 1, abandoned := 1 }

lemma bx4_reachable : Reachable Unit 1 1 bx4 := by
  have h0 : Reachable Unit 1 1 bx0 := Reachable.init
  have h1 : Reachable Unit 1 1 bx1 := h0.step (Step.pollRequest bx0)
  have h2 : Reachable Unit 1 1 bx2 := h1.step (Step.checkTopCont bx1 0 rfl rfl)
  have h3 : Reachable Unit 1 1 bx3 := h2.step (Step.acquire bx2 0 rfl (by decide))
  exact h3.step (Step.notify bx3)

/-- C2 counterexample: in the reachable state `bx4` (one permit issued, one
poll in flight, zero permits available, shutdown signaled), the shutdown
branch of the in-flight race produces `bx5`, whose semaphore count is 1,
not 0: the permit is re-released, not consumed, contradicting the claim
that the count after that branch equals the consumed-permit count. -/
theorem LongPollBuffer.shutdown_race_drops_demand_cex :
    Reachable Unit 1 1 bx4 ∧
    Step bx4 (Label.pollInterrupted 0) bx5 ∧
    bx4.polls_requested = 0 ∧ bx5.polls_requested = 1 ∧
    ¬ bx5.polls_requested = bx4.polls_requested := by
  exact ⟨bx4_reachable, Step.pollInterrupted bx4 0 rfl rfl, rfl, rfl, by decide⟩

/-- C2 amended: in every worker loop, when the shutdown signal wins the race
against an in-flight poll operation, the `continue` drops the held
`SemaphorePermit`, whose `Drop` impl re-releases the permit to the demand
semaphore: the semaphore's count after that branch is one GREATER than if
the permit had been consumed, so that instance of demand becomes available
again (though the exiting workers may never serve it). The worker itself
returns to the loop top with the shutdown flag set. -/
theorem LongPollBuffer.shutdown_race_rereleases_permit {T : Type}
    (s s1 : LongPollBuffer T) (i : Nat) (h : Step s (Label.pollInterrupted i) s1) :
    s1.polls_requested = s.polls_requested + 1 ∧
    s1.abandoned = s.abandoned + 1 ∧
    s1.workers.get? i = some WorkerState.atTop ∧
    s1.shutdown = true := by
  cases h with
  | pollInterrupted i2 hw hs =>
      exact ⟨rfl, rfl, get?_set_self s.workers i WorkerState.polling WorkerState.atTop hw, hs⟩

/-- C2 amended witness: the re-release evaluated on the concrete states. -/
theorem LongPollBuffer.shutdown_race_rereleases_permit_witness :
    bx5.polls_requested = bx4.polls_requested + 1 ∧
    bx5.abandoned = bx4.abandoned + 1 ∧
    bx5.workers.get? 0 = some WorkerState.atTop ∧
    bx5.shutdown = true :=
  LongPollBuffer.shutdown_race_rereleases_permit bx4 bx5 0
    (Step.pollInterrupted bx4 0 rfl rfl)

/-- A buffer constructed with zero concurrent pollers (capacity one). -/
def bz0 : LongPollBuffer Unit := LongPollBuffer.new Unit 0 1

/-- The zero-poller buffer after one `poll` call's add_permits. -/
def bz1 : LongPollBuffer Unit := { bz0 with polls_requested := 1, issued := 1 }

/-- C3 counterexample: on a buffer constructed with zero concurrent pollers,
the state reached by a single `poll` call has `recv` returning `None` (the
channel is closed — there is no worker holding a sender — and empty) while
the shutdown flag is still false: `poll` returns `None` although the buffer
was never shut down, refuting the claimed equivalence for every buffer. -/
theorem LongPollBuffer.poll_none_without_shutdown_cex :
    Reachable Unit 0 1 bz1 ∧ recv_returns_none bz1 ∧ bz1.shutdown = false ∧
    Step bz1 Label.recvNone bz1 := by
  refine ⟨Reachable.init.step (Step.pollRequest bz0), ⟨rfl, ?_⟩, rfl,
    Step.recvNone bz1 rfl ?_⟩
  · intro w hw
    simp [bz1, bz0, LongPollBuffer.new] at hw
  · intro w hw
    simp [bz1, bz0, LongPollBuffer.new] at hw

/-- C3 amended: for every LongPollBuffer constructed with at least one
concurrent poller, `poll` returns `None` only when shutdown has taken
effect and the buffer is drained: if `recv` yields `None` then the shutdown
flag is set and the buffer is empty, and conversely while the shutdown flag
is still false `recv` can never yield `None` — `poll` suspends instead
(and shutdown is never reported to `poll` callers as an error value, `None`
being the only closed-channel outcome). -/
theorem LongPollBuffer.poll_none_only_after_shutdown {T : Type} {K cap : Nat}
    (s : LongPollBuffer T) (hK : 1 ≤ K) (h : Reachable T K cap s) :
    (recv_returns_none s → s.shutdown = true ∧ s.buffered_polls = []) ∧
    (s.shutdown = false → ¬ recv_returns_none s) := by
  obtain ⟨hlen, h1, h2, h3, h4, h5, h6, h7⟩ := reachable_inv h
  have hB : s.shutdown = false → ¬ recv_returns_none s := by
    rintro hsf ⟨hb, hw⟩
    have hne : s.workers ≠ [] := by
      intro h0
      rw [h0] at hlen
      simp at hlen
      omega
    obtain ⟨a, t, hat⟩ := List.exists_cons_of_ne_nil hne
    have hmem : a ∈ s.workers := by rw [hat]; exact List.mem_cons_self a t
    exact h6 hsf a hmem (hw a hmem)
  refine ⟨?_, hB⟩
  intro hr
  refine ⟨?_, hr.1⟩
  cases hsd : s.shutdown with
  | true => rfl
  | false => exact absurd hr (hB hsd)

/-- C3 amended witness: the fresh one-worker buffer is not shut down, so
`recv` cannot yield `None` there. -/
theorem LongPollBuffer.poll_none_only_after_shutdown_witness :
    ¬ recv_returns_none (LongPollBuffer.new Unit 1 1) :=
  (LongPollBuffer.poll_none_only_after_shutdown (LongPollBuffer.new Unit 1 1)
    (by decide) Reachable.init).2 rfl

/-- C10: for every reachable state of a LongPollBuffer constructed with
`concurrent_pollers = 0`, `recv` yields `None` immediately — the internal
buffer is empty (no worker task ever held a producer handle, and the
construction-time handle was dropped when `new` returned, so the channel is
closed) — and this holds whatever the shutdown flag is; in particular a
`poll` call (add one permit, then receive) returns `None` and leaves the
shutdown flag untouched. -/
theorem LongPollBuffer.zero_pollers_poll_none {T : Type} {cap : Nat}
    (s : LongPollBuffer T) (h : Reachable T 0 cap s) :
    recv_returns_none s ∧ Step s Label.recvNone s ∧
    (∀ s1, Step s Label.pollRequest s1 →
      recv_returns_none s1 ∧ s1.shutdown = s.shutdown) := by
  obtain ⟨hlen, h1, h2, h3, h4, h5, h6, h7⟩ := reachable_inv h
  have hnil : s.workers = [] := by
    cases hws : s.workers with
    | nil => rfl
    | cons a t => rw [hws] at hlen; simp at hlen
  have hbe : s.buffered_polls = [] := h7 hnil
  have hrn : recv_returns_none s := by
    refine ⟨hbe, ?_⟩
    intro w hw
    rw [hnil] at hw
    cases hw
  refine ⟨hrn, Step.recvNone s hbe ?_, ?_⟩
  · intro w hw
    rw [hnil] at hw
    cases hw
  · intro s1 hstep
    cases hstep with
    | pollRequest =>
        refine ⟨⟨hbe, ?_⟩, rfl⟩
        intro w hw
        dsimp only at hw
        rw [hnil] at hw
        cases hw

/-- C10 witness: evaluated on the concrete zero-poller buffer after one
`poll` call. -/
theorem LongPollBuffer.zero_pollers_poll_none_witness :
    recv_returns_none bz1 ∧ bz1.shutdown = false := by
  have h := LongPollBuffer.zero_pollers_poll_none bz0 Reachable.init
  exact ⟨(h.2.2 bz1 (Step.pollRequest bz0)).1, rfl⟩

/-- C6: when the injected poll operation of a worker completes with an error
value, the worker holds exactly that error (unretried), its eventual push
appends exactly that error value unchanged at the back of the buffer and
returns the worker to the top of its loop (the loop does not terminate),
and the `recv` that removes a buffered result delivers the buffer's front
verbatim: the error reaches the `poll` caller unmodified and unsuppressed. -/
theorem LongPollBuffer.error_forwarded_verbatim {T : Type}
    (s s1 : LongPollBuffer T) (i : Nat) (e : String)
    (h : Step s (Label.pollComplete i (PollRes.err e)) s1) :
    s1.workers.get? i = some (WorkerState.pushing (PollRes.err e)) ∧
    s1.buffered_polls = s.buffered_polls ∧
    s1.completed = s.completed + 1 ∧
    (∀ s2, Step s1 (Label.push i) s2 →
      s2.buffered_polls = s1.buffered_polls ++ [PollRes.err e] ∧
      s2.workers.get? i = some WorkerState.atTop ∧
      ¬ s2.workers.get? i = some WorkerState.done) ∧
    (∀ t t1 : LongPollBuffer T, ∀ r : PollRes T, Step t (Label.recvSome r) t1 →
      t.buffered_polls = r :: t1.buffered_polls) := by
  cases h with
  | pollComplete i2 r2 hw =>
      have hfirst := get?_set_self s.workers i WorkerState.polling
        (WorkerState.pushing (PollRes.err e)) hw
      refine ⟨hfirst, rfl, rfl, ?_, ?_⟩
      · intro s2 h2
        cases h2 with
        | push i3 r3 hw3 hcap =>
            dsimp only at hw3
            rw [hfirst] at hw3
            simp at hw3
            subst hw3
            refine ⟨rfl, ?_, ?_⟩
            · exact get?_set_self _ i (WorkerState.pushing (PollRes.err e))
                WorkerState.atTop hfirst
            · have ha := get?_set_self _ i (WorkerState.pushing (PollRes.err e))
                WorkerState.atTop hfirst
              intro hC
              rw [ha] at hC
              simp at hC
      · intro t t1 r h5
        cases h5 with
        | recvSome r4 rest hb => exact hb

/-- The worker of `bx3` completes its poll with an error value. -/
def bx3e : LongPollBuffer Unit :=
  { bx3 with workers := [WorkerState.pushing (PollRes.err "boom")], completed := 1 }

/-- The worker pushed the error into the buffer. -/
def bx3f : LongPollBuffer Unit :=
  { bx3e with workers := [WorkerState.atTop],
              buffered_polls := [PollRes.err "boom"], pushed := 1 }

/-- C6 witness: the verbatim forwarding evaluated on a concrete error run. -/
theorem LongPollBuffer.error_forwarded_verbatim_witness :
    bx3e.workers.get? 0 = some (WorkerState.pushing (PollRes.err "boom")) ∧
    bx3f.buffered_polls = bx3e.buffered_polls ++ [PollRes.err "boom"] ∧
    bx3f.workers.get? 0 = some WorkerState.atTop := by
  have h := LongPollBuffer.error_forwarded_verbatim bx3 bx3e 0 "boom"
    (Step.pollComplete bx3 0 (PollRes.err "boom") rfl)
  have h4 := h.2.2.2.1 bx3f (Step.push bx3e 0 (PollRes.err "boom") rfl (by decide))
  exact ⟨h.1, h4.1, h4.2.1⟩

/-- C7: `notify_shutdown` is idempotent (a second call leaves the state
unchanged), it sets the shutdown flag, it is enabled in every state without
any worker-related precondition (it does not wait for workers), and the
flag is monotonic: no step of the system ever resets it from true to
false. -/
theorem LongPollBuffer.notify_shutdown_spec {T : Type} (s : LongPollBuffer T) :
    s.notify_shutdown.notify_shutdown = s.notify_shutdown ∧
    s.notify_shutdown.shutdown = true ∧
    Step s Label.notify s.notify_shutdown ∧
    (∀ (l : Label T) (s1 : LongPollBuffer T), Step s l s1 →
      s.shutdown = true → s1.shutdown = true) := by
  refine ⟨rfl, rfl, Step.notify s, ?_⟩
  intro l s1 hstep hsh
  cases hstep <;> first | exact hsh | rfl

/-- C7 witness: idempotence and monotonicity across a concrete step on a
concrete buffer. -/
theorem LongPollBuffer.notify_shutdown_spec_witness :
    (LongPollBuffer.new Unit 1 1).notify_shutdown.notify_shutdown
        = (LongPollBuffer.new Unit 1 1).notify_shutdown ∧
    (LongPollBuffer.new Unit 1 1).notify_shutdown.notify_shutdown.shutdown = true := by
  have h := LongPollBuffer.notify_shutdown_spec
    ((LongPollBuffer.new Unit 1 1).notify_shutdown)
  exact ⟨(LongPollBuffer.notify_shutdown_spec (LongPollBuffer.new Unit 1 1)).1,
    h.2.2.2 Label.notify ((LongPollBuffer.new Unit 1 1).notify_shutdown.notify_shutdown)
      (Step.notify _) rfl⟩
